import Mathlib

/-!
Verification model of the AI chat conversation core (`chat-model.ts`).

The definitions below are a shallow embedding of the response-content
aggregation engine, the response lifecycle state machine, the conversation
model's change-set handling, and the change-set element operations.  Pure
per-kind content operations become Lean functions; the stateful classes
become explicit state records with state-passing operations; fired events
are modelled as explicit event logs; JavaScript `undefined` becomes
`Option.none`.
-/

namespace ChatModel

/-- Coercion used by JavaScript template literals: an absent (`undefined`)
string renders as the literal text "undefined". -/
def jsShow : Option String → String
  | some s => s
  | none => "undefined"

/-- JavaScript `a || b` on optional strings: falsy values (absent or the
empty string) fall through to the alternative. -/
def jsOrElse (a : Option String) (b : String) : String :=
  match a with
  | some s => if s = "" then b else s
  | none => b

/-- State of `ToolCallChatResponseContentImpl`: the stored (optional)
fields `_id`, `_name`, `_arguments`, `_finished`, `_result`. -/
structure ToolCallData where
  id : Option String
  name : Option String
  arguments : Option String
  finished : Option Bool
  result : Option String
deriving Repr, DecidableEq

/-- Getter `finished` of `ToolCallChatResponseContentImpl`: an unset
`_finished` reads as `false`. -/
def finishedOf (t : ToolCallData) : Bool := t.finished.getD false

/-- Source location attached to a code content element (uri string plus
line/character of the position); stored but never used by the modelled
operations. -/
structure LocationLite where
  uri : String
  line : Nat
  character : Nat
deriving Repr, DecidableEq

/-- The closed set of response content kinds, one constructor per concrete
implementation class in the source.  Markdown strings are modelled by
their accumulated `value`. -/
inductive ChatContent where
  | text (content : String)
  | markdownContent (content : String)
  | informational (content : String)
  | code (code : String) (language : Option String) (location : Option LocationLite)
  | horizontal (children : List ChatContent)
  | toolCall (data : ToolCallData)
  | command (commandId : Option String) (customCallbackLabel : Option String)
  | question (question : String) (options : List (String × Option String))
      (selected : Option String)
  | error (message : String)
deriving Repr

/-- The `kind` discriminator string of each content implementation. -/
def kindOf : ChatContent → String
  | .text _ => "text"
  | .markdownContent _ => "markdownContent"
  | .informational _ => "informational"
  | .code _ _ _ => "code"
  | .horizontal _ => "horizontal"
  | .toolCall _ => "toolCall"
  | .command _ _ => "command"
  | .question _ _ _ => "question"
  | .error _ => "error"

/-- `ChatResponseContent.hasMerge`: every implementation class except
`CommandChatResponseContentImpl` and `ErrorChatResponseContentImpl`
defines a `merge` method (the question implementation defines one that
always declines). -/
def hasMerge : ChatContent → Bool
  | .command _ _ => false
  | .error _ => false
  | _ => true

/-- `ChatResponseContent.hasAsString`: every implementation class defines
an `asString` method (some of them return `undefined` from it). -/
def hasAsString : ChatContent → Bool
  | .text _ => true
  | .markdownContent _ => true
  | .informational _ => true
  | .code _ _ _ => true
  | .horizontal _ => true
  | .toolCall _ => true
  | .command _ _ => true
  | .question _ _ _ => true
  | .error _ => true

/-- `ChatResponseContent.hasDisplayString`: only the text, markdown,
tool-call and horizontal-layout implementations define `asDisplayString`. -/
def hasDisplayString : ChatContent → Bool
  | .text _ => true
  | .markdownContent _ => true
  | .toolCall _ => true
  | .horizontal _ => true
  | _ => false

mutual

/-- Result of calling `asString()` on a content element; `none` models a
JavaScript `undefined` return value.  The horizontal layout joins its
children's values with single spaces, rendering an undefined child value
as the empty string (the behaviour of `Array.prototype.join`). -/
def asStringCap : ChatContent → Option String
  | .text content => some content
  | .markdownContent content => some content
  | .informational _ => none
  | .code code language _ =>
      some ("```" ++ language.getD "" ++ "\n" ++ code ++ "\n```")
  | .horizontal children => some (String.intercalate " " (childStrings children))
  | .toolCall _ => some ""
  | .command commandId customCallbackLabel =>
      some (jsOrElse commandId (jsOrElse customCallbackLabel "command"))
  | .question q _ selected =>
      some ("Question: " ++ q ++ "\n" ++
        (match selected with
         | some t => "Answer: " ++ t
         | none => "No answer"))
  | .error _ => none

/-- Helper of `asStringCap` for the children of a horizontal layout. -/
def childStrings : List ChatContent → List String
  | [] => []
  | c :: cs => (asStringCap c).getD "" :: childStrings cs

end

/-- Result of calling `asDisplayString()` on the elements that define it;
`none` models the absence of the method. -/
def asDisplayCap : ChatContent → Option String
  | .text content => some content
  | .markdownContent content => some content
  | .toolCall t =>
      some ("Tool call: " ++ jsShow t.name ++ "(" ++ t.arguments.getD "" ++ ")")
  | .horizontal children => some (String.intercalate " " (childStrings children))
  | _ => none

/-- `ToolCallChatResponseContentImpl.merge`: an id-equal incoming fragment
adopts the incoming `finished` flag and `result`; otherwise a named
fragment is refused, a fragment without arguments is refused, and an
argument fragment is appended to the accumulated argument string
(an unset accumulator stringifies as "undefined", as in JavaScript). -/
def mergeToolCall (t n : ToolCallData) : ToolCallData × Bool :=
  if n.id == t.id then
    ({ t with finished := some (finishedOf n), result := n.result }, true)
  else if n.name.isSome then
    (t, false)
  else
    match n.arguments with
    | none => (t, false)
    | some a => ({ t with arguments := some (jsShow t.arguments ++ a) }, true)

/-- Per-kind `merge` bodies.  `doAddContent` only ever invokes `merge` on
two elements of the same kind (or, for horizontal layouts, on an arbitrary
incoming element, which the horizontal merge accepts as one more child);
the final catch-all covers the call shapes that the aggregation code never
produces. -/
def mergeContent : ChatContent → ChatContent → ChatContent × Bool
  | .text a, .text b => (.text (a ++ b), true)
  | .markdownContent a, .markdownContent b => (.markdownContent (a ++ b), true)
  | .informational a, .informational b => (.informational (a ++ b), true)
  | .code a language location, .code b _ _ => (.code (a ++ b) language location, true)
  | .horizontal xs, .horizontal ys => (.horizontal (xs ++ ys), true)
  | .horizontal xs, c => (.horizontal (xs ++ [c]), true)
  | .toolCall t, .toolCall n =>
      let r := mergeToolCall t n
      (.toolCall r.1, r.2)
  | .question q o selected, _ => (.question q o selected, false)
  | c, _ => (c, false)

/-- Predicate of the `find` call in `doAddContent`: an existing element of
the tool-call kind whose id equals the incoming fragment's id. -/
def matchesToolId (targetId : Option String) : ChatContent → Bool
  | .toolCall t => t.id == targetId
  | _ => false

/-- Index returned by `Array.prototype.find` for the tool-call scan: the
first index whose element matches, if any. -/
def findToolIdx (targetId : Option String) : List ChatContent → Option Nat
  | [] => none
  | c :: rest =>
      if matchesToolId targetId c then some 0
      else (findToolIdx targetId rest).map (· + 1)

/-- In-place mutation of the found element in the tool-call scan: only a
tool-call element is ever found, and it absorbs the fragment through
`mergeToolCall` (whose return value the caller discards). -/
def mergeIfTool (c : ChatContent) (n : ToolCallData) : ChatContent :=
  match c with
  | .toolCall t => .toolCall (mergeToolCall t n).1
  | c => c

/-- The tool-call branch of `doAddContent`: find the first existing
tool-call element with the same id and merge the incoming fragment into it
in place (the merge's return value is ignored); `none` when no element
matches. -/
def tryMergeToolById (content : List ChatContent) (n : ToolCallData) : Option (List ChatContent) :=
  match content with
  | [] => none
  | c :: rest =>
      if matchesToolId n.id c then some (mergeIfTool c n :: rest)
      else (tryMergeToolById rest n).map (c :: ·)

/-- Whether a fragment takes the tool-call identity branch of
`doAddContent` (`ToolCallChatResponseContent.is(c) && c.id !== undefined`). -/
def isToolCallWithId : ChatContent → Bool
  | .toolCall t => t.id.isSome
  | _ => false

/-- Tool-call kind test (`ToolCallChatResponseContent.is`). -/
def isToolCallKind : ChatContent → Bool
  | .toolCall _ => true
  | _ => false

/-- The last-element branch of `doAddContent`: merge with the last element
when the kinds match and it supports merge, appending instead when the
merge declines or is impossible.  In-place mutation of the last element is
modelled by replacing it. -/
def addToLast (content : List ChatContent) (next : ChatContent) : List ChatContent :=
  match content.getLast? with
  | some lastElement =>
      if kindOf lastElement == kindOf next && hasMerge lastElement then
        let m := mergeContent lastElement next
        if m.2 then content.dropLast ++ [m.1] else content ++ [next]
      else content ++ [next]
  | none => content ++ [next]

/-- `ChatResponseImpl.doAddContent` restricted to its effect on the content
sequence (the representation recomputation lives in `doAddStep`). -/
def doAddContent (content : List ChatContent) (next : ChatContent) : List ChatContent :=
  match next with
  | ChatContent.toolCall n =>
      if n.id.isSome then
        match tryMergeToolById content n with
        | some merged => merged
        | none => content ++ [ChatContent.toolCall n]
      else addToLast content (ChatContent.toolCall n)
  | _ => addToLast content next

/-- One element of the `responseRepresentationsToString` mapping stage:
prefer the display capability only when collecting the display string,
otherwise use the plain-string capability, fall back to the raw content of
a legacy plain-text element, and yield `undefined` (`none`) otherwise. -/
def representationOf (collectDisplay : Bool) (c : ChatContent) : Option String :=
  if collectDisplay && hasDisplayString c then asDisplayCap c
  else if hasAsString c then asStringCap c
  else
    match c with
    | .text raw => some raw
    | _ => none

/-- Filter stage of `responseRepresentationsToString`: keep a mapped value
only when it is neither `undefined` nor the empty string. -/
def dropEmpty : Option String → Option String
  | some s => if s = "" then none else some s
  | none => none

/-- `ChatResponseImpl.responseRepresentationsToString`: map every element
to its string representation, drop undefined and empty results, and join
with a blank line. -/
def responseRepresentationsToString (content : List ChatContent) (collectDisplay : Bool) : String :=
  String.intercalate "\n\n" ((content.map (representationOf collectDisplay)).filterMap dropEmpty)

/-- State of a `ChatResponseImpl`: the content sequence, the two cached
flattened representations (`none` models the uninitialized fields before
the first update), and the number of change notifications fired by its
emitter. -/
structure ChatResponseState where
  content : List ChatContent
  responseRepresentation : Option String
  responseRepresentationForDisplay : Option String
  fires : Nat
deriving Repr

/-- A freshly constructed `ChatResponseImpl`: empty content, both cached
representations still uninitialized, no notification fired yet. -/
def initResponse : ChatResponseState :=
  { content := []
    responseRepresentation := none
    responseRepresentationForDisplay := none
    fires := 0 }

/-- One internal `doAddContent` call: merge or append the fragment and
recompute both cached representations, without firing. -/
def doAddStep (s : ChatResponseState) (c : ChatContent) : ChatResponseState :=
  let nc := doAddContent s.content c
  { s with
    content := nc
    responseRepresentation := some (responseRepresentationsToString nc false)
    responseRepresentationForDisplay := some (responseRepresentationsToString nc true) }

/-- `ChatResponseImpl.addContent`: one fragment, one notification. -/
def addContent (s : ChatResponseState) (c : ChatContent) : ChatResponseState :=
  let s2 := doAddStep s c
  { s2 with fires := s2.fires + 1 }

/-- `ChatResponseImpl.addContents`: the whole batch, then one notification. -/
def addContents (s : ChatResponseState) (cs : List ChatContent) : ChatResponseState :=
  let s2 := cs.foldl doAddStep s
  { s2 with fires := s2.fires + 1 }

/-- Feed a sequence of fragments through `addContent`, one call each,
starting from a fresh response. -/
def runAddContents (frags : List ChatContent) : ChatResponseState :=
  frags.foldl addContent initResponse

/-- Observable state of a `MutableChatResponseModel`: the four status
flags (the cancellation token's raised flag backs `isCanceled`), the
recorded error cause, and the number of change notifications fired by the
model's own emitter. -/
structure ResponseModelState where
  isComplete : Bool
  isWaitingForInput : Bool
  isError : Bool
  errorObject : Option String
  canceled : Bool
  fires : Nat
deriving Repr, DecidableEq

/-- A freshly constructed response model: nothing set, fresh token. -/
def initResponseModel : ResponseModelState :=
  { isComplete := false
    isWaitingForInput := false
    isError := false
    errorObject := none
    canceled := false
    fires := 0 }

/-- `MutableChatResponseModel.complete`. -/
def complete (s : ResponseModelState) : ResponseModelState :=
  { s with isComplete := true, isWaitingForInput := false, fires := s.fires + 1 }

/-- `MutableChatResponseModel.cancel`: raise the cancellation token, mark
complete, clear waiting, fire once. -/
def cancel (s : ResponseModelState) : ResponseModelState :=
  { s with
    canceled := true
    isComplete := true
    isWaitingForInput := false
    fires := s.fires + 1 }

/-- `MutableChatResponseModel.error`. -/
def errorTransition (s : ResponseModelState) (cause : String) : ResponseModelState :=
  { s with
    isComplete := true
    isWaitingForInput := false
    isError := true
    errorObject := some cause
    fires := s.fires + 1 }

/-- `MutableChatResponseModel.waitForInput`. -/
def waitForInput (s : ResponseModelState) : ResponseModelState :=
  { s with isWaitingForInput := true, fires := s.fires + 1 }

/-- `MutableChatResponseModel.stopWaitingForInput`. -/
def stopWaitingForInput (s : ResponseModelState) : ResponseModelState :=
  { s with isWaitingForInput := false, fires := s.fires + 1 }

/-- The outward status flags of a response model, in the order
(isComplete, isCanceled, isWaitingForInput, isError). -/
def outwardFlags (s : ResponseModelState) : Bool × Bool × Bool × Bool :=
  (s.isComplete, s.canceled, s.isWaitingForInput, s.isError)

/-- The change events a `MutableChatModel` fires for its change-set
handling; change sets are identified by a numeric id.  The payload of an
`updateChangeSet` event is the model's *current* `_changeSet` field at
firing time (which the source reads through a non-null assertion, so it
may in principle be absent). -/
inductive CsEvent where
  | setChangeSet (cs : Nat)
  | deleteChangeSet
  | updateChangeSet (cs : Option Nat)
  | removeChangeSet (cs : Nat)
deriving Repr, DecidableEq

/-- Change-set related state of a `MutableChatModel`: the active change
set, the forwarding subscriptions that are currently registered on some
change set's emitter (as (subscription token, change-set id) pairs in
registration order), the token held in `_changeSetListener`, a fresh-token
counter, and the log of fired events. -/
structure ChatModelState where
  changeSet : Option Nat
  subs : List (Nat × Nat)
  changeSetListener : Option Nat
  nextToken : Nat
  events : List CsEvent
deriving Repr, DecidableEq

/-- A freshly constructed `MutableChatModel`: no change set, no
subscription, nothing fired. -/
def initChatModel : ChatModelState :=
  { changeSet := none
    subs := []
    changeSetListener := none
    nextToken := 0
    events := [] }

/-- `MutableChatModel.setChangeSet`.  Passing `none` stores `undefined`,
disposes the listener recorded in `_changeSetListener` (and only that
one), and fires `deleteChangeSet`.  Passing a change set stores it, fires
`setChangeSet`, and registers a fresh forwarding subscription on the new
change set's emitter — without disposing any previous subscription. -/
def setChangeSet (s : ChatModelState) (cs : Option Nat) : ChatModelState :=
  match cs with
  | none =>
      { s with
        changeSet := none
        subs :=
          match s.changeSetListener with
          | some tok => s.subs.filter (fun p => p.1 != tok)
          | none => s.subs
        events := s.events ++ [CsEvent.deleteChangeSet] }
  | some c =>
      { s with
        changeSet := some c
        events := s.events ++ [CsEvent.setChangeSet c]
        subs := s.subs ++ [(s.nextToken, c)]
        changeSetListener := some s.nextToken
        nextToken := s.nextToken + 1 }

/-- `MutableChatModel.removeChangeSet`: only when a change set is active,
clear it and fire `removeChangeSet` with the removed instance; otherwise
do nothing at all. -/
def removeChangeSet (s : ChatModelState) : ChatModelState :=
  match s.changeSet with
  | some old =>
      { s with
        changeSet := none
        events := s.events ++ [CsEvent.removeChangeSet old] }
  | none => s

/-- `ChangeSetImpl.notifyChange` of change set `cs`, as observed through
the chat model: every forwarding subscription registered on `cs` fires one
`updateChangeSet` event carrying the model's current change set. -/
def notifyChange (s : ChatModelState) (cs : Nat) : ChatModelState :=
  { s with
    events :=
      s.events ++
        ((s.subs.filter (fun p => p.2 == cs)).map
          (fun _ => CsEvent.updateChangeSet s.changeSet)) }

/-- Number of `setChangeSet` events in a log. -/
def countSetCs (evts : List CsEvent) : Nat :=
  (evts.filter (fun e => match e with | .setChangeSet _ => true | _ => false)).length

/-- Number of `deleteChangeSet` events in a log. -/
def countDeleteCs (evts : List CsEvent) : Nat :=
  (evts.filter (fun e => match e with | .deleteChangeSet => true | _ => false)).length

/-- Number of `updateChangeSet` events in a log. -/
def countUpdateCs (evts : List CsEvent) : Nat :=
  (evts.filter (fun e => match e with | .updateChangeSet _ => true | _ => false)).length

/-- A change-set element, keyed by the string form of its resource uri;
`name` and `state` stand for the remaining descriptive payload. -/
structure CsElement where
  uri : String
  name : Option String
  state : Option String
deriving Repr, DecidableEq

/-- State of a `ChangeSetImpl`: its elements in order and the number of
change notifications its emitter has fired. -/
structure ChangeSetState where
  elements : List CsElement
  notifications : Nat
deriving Repr, DecidableEq

/-- `Array.prototype.findIndex` over the uri-equality predicate of
`ChangeSetImpl.replaceElement`. -/
def findUriIdx (u : String) : List CsElement → Option Nat
  | [] => none
  | e :: rest =>
      if e.uri == u then some 0
      else (findUriIdx u rest).map (· + 1)

/-- `ChangeSetImpl.addElements`: append the batch and fire once. -/
def addElements (s : ChangeSetState) (es : List CsElement) : ChangeSetState :=
  { elements := s.elements ++ es, notifications := s.notifications + 1 }

/-- `ChangeSetImpl.addElement`. -/
def addElement (s : ChangeSetState) (e : CsElement) : ChangeSetState :=
  addElements s [e]

/-- `ChangeSetImpl.replaceElement`: overwrite the element at the first
uri match in place and fire once, returning whether a match was found. -/
def replaceElement (s : ChangeSetState) (e : CsElement) : ChangeSetState × Bool :=
  match findUriIdx e.uri s.elements with
  | none => (s, false)
  | some i =>
      ({ elements := s.elements.set i e, notifications := s.notifications + 1 }, true)

/-- `ChangeSetImpl.addOrReplaceElement`: append exactly when the replace
found no match. -/
def addOrReplaceElement (s : ChangeSetState) (e : CsElement) : ChangeSetState :=
  let r := replaceElement s e
  if r.2 then r.1 else addElement r.1 e

/-- `ChangeSetImpl.removeElement`: splice out the element at an index and
fire once. -/
def removeElement (s : ChangeSetState) (i : Nat) : ChangeSetState :=
  { elements := s.elements.take i ++ s.elements.drop (i + 1)
    notifications := s.notifications + 1 }

/-- Modelled from the spec's flattening words: each element's plain-string
rendering, with a fall-back to the raw text content for the legacy
plain-text kind, no rendering otherwise, and undefined or empty renderings
dropped. -/
def specRenderPlain (c : ChatContent) : Option String :=
  match asStringCap c with
  | some s => if s = "" then none else some s
  | none =>
      match c with
      | .text raw => if raw = "" then none else some raw
      | _ => none

/-- Modelled from the spec's flattening words: the in-order join of the
non-dropped renderings, separated by a blank line. -/
def specAsStringJoin (content : List ChatContent) : String :=
  String.intercalate "\n\n" (content.filterMap specRenderPlain)

/-- First tool fragment of the three-fragment scenario: id "t1", name
"foo", no arguments. -/
def toolFrag1 : ChatContent :=
  ChatContent.toolCall ⟨some "t1", some "foo", none, none, none⟩

/-- Second tool fragment: id "t1", no name, arguments the JSON text
consisting of a left brace, "x":1, and a right brace. -/
def toolFrag2 : ChatContent :=
  ChatContent.toolCall ⟨some "t1", none, some "\x7b\"x\":1\x7d", none, none⟩

/-- Third tool fragment: id "t1", finished true, result "ok". -/
def toolFrag3 : ChatContent :=
  ChatContent.toolCall ⟨some "t1", none, none, some true, some "ok"⟩

/-- Accumulated argument string of the first element of a content
sequence, when that element is a tool call. -/
def firstToolArguments (content : List ChatContent) : Option String :=
  match content with
  | ChatContent.toolCall t :: _ => t.arguments
  | _ => none

/-- The `finished` getter of the first element of a content sequence, when
that element is a tool call. -/
def firstToolFinished (content : List ChatContent) : Bool :=
  match content with
  | ChatContent.toolCall t :: _ => finishedOf t
  | _ => false

/-- The `result` field of the first element of a content sequence, when
that element is a tool call. -/
def firstToolResult (content : List ChatContent) : Option String :=
  match content with
  | ChatContent.toolCall t :: _ => t.result
  | _ => none

/-!  Theorems.  -/

/-- Collecting the plain representation ignores the display capability. -/
theorem representationOf_false (c : ChatContent) :
    representationOf false c = asStringCap c := by
  cases c <;> rfl

/-- When no tool-call element with the wanted id exists, the scan of
`doAddContent` comes back empty. -/
theorem tryMergeToolById_eq_none (n : ToolCallData) :
    ∀ content : List ChatContent,
      findToolIdx n.id content = none → tryMergeToolById content n = none := by
  intro content
  induction content with
  | nil => intro _; rfl
  | cons c rest ih =>
      intro h
      unfold findToolIdx at h
      unfold tryMergeToolById
      by_cases hm : matchesToolId n.id c
      · simp [hm] at h
      · simp only [hm, if_neg, Bool.false_eq_true, if_false] at h ⊢
        simp only [Option.map_eq_none'] at h
        simp [ih h]

/-- When the scan of `doAddContent` finds a first matching index, the
result is the sequence with the element at that index merged in place. -/
theorem tryMergeToolById_eq_some (n : ToolCallData) :
    ∀ (content : List ChatContent) (i : Nat) (c : ChatContent),
      findToolIdx n.id content = some i →
      content[i]? = some c →
      tryMergeToolById content n = some (content.set i (mergeIfTool c n)) := by
  intro content
  induction content with
  | nil => intro i c h; simp [findToolIdx] at h
  | cons a rest ih =>
      intro i c h hget
      unfold findToolIdx at h
      unfold tryMergeToolById
      by_cases hm : matchesToolId n.id a
      · simp only [hm, if_true] at h ⊢
        obtain rfl : i = 0 := by
          cases h
          rfl
        simp only [List.getElem?_cons_zero, Option.some.injEq] at hget
        subst hget
        rfl
      · simp only [hm, Bool.false_eq_true, if_false] at h ⊢
        obtain ⟨j, hj, rfl⟩ := Option.map_eq_some'.mp h
        simp only [List.getElem?_cons_succ] at hget
        rw [ih j c hj hget]
        rfl

/-- C1. For every incoming tool-invocation fragment that carries a
non-empty invocation id, `doAddContent` scans the whole existing content
sequence: if a first element of the tool-call kind with the same id exists
it is merged in place (the merge's own return value plays no role and the
fragment is never appended, so the sequence keeps its length), and if none
exists the fragment is appended as a new element. -/
theorem c1_tool_scan (content : List ChatContent) (n : ToolCallData) (s : String)
    (hid : n.id = some s) (_hne : s ≠ "") :
    (findToolIdx n.id content = none →
      doAddContent content (ChatContent.toolCall n) = content ++ [ChatContent.toolCall n]) ∧
    (∀ i c, findToolIdx n.id content = some i →
      content[i]? = some c →
      doAddContent content (ChatContent.toolCall n) = content.set i (mergeIfTool c n) ∧
      (doAddContent content (ChatContent.toolCall n)).length = content.length) := by
  have hsome : n.id.isSome = true := by rw [hid]; rfl
  constructor
  · intro hnone
    simp only [doAddContent, hsome, if_true, tryMergeToolById_eq_none n content hnone]
  · intro i c hfind hget
    have heq : doAddContent content (ChatContent.toolCall n)
        = content.set i (mergeIfTool c n) := by
      simp only [doAddContent, hsome, if_true,
        tryMergeToolById_eq_some n content i c hfind hget]
    refine ⟨heq, ?_⟩
    rw [heq, List.length_set]

/-- Witness for C1 at concrete inputs: an existing "t1" tool call absorbs
a same-id fragment in place, and a sequence without a matching id gets the
fragment appended. -/
theorem c1_tool_scan_witness :
    ((⟨some "t1", none, some "a", none, none⟩ : ToolCallData).id = some "t1"
      ∧ "t1" ≠ "") ∧
    doAddContent [ChatContent.toolCall ⟨some "t1", some "foo", none, none, none⟩]
        (ChatContent.toolCall ⟨some "t1", none, some "a", none, none⟩)
      = [ChatContent.toolCall ⟨some "t1", some "foo", none, some false, none⟩] ∧
    doAddContent [ChatContent.text "x"]
        (ChatContent.toolCall ⟨some "t1", none, some "a", none, none⟩)
      = [ChatContent.text "x",
         ChatContent.toolCall ⟨some "t1", none, some "a", none, none⟩] := by
  refine ⟨⟨rfl, by decide⟩, ?_, ?_⟩
  · have h := (c1_tool_scan
      [ChatContent.toolCall ⟨some "t1", some "foo", none, none, none⟩]
      ⟨some "t1", none, some "a", none, none⟩ "t1" rfl (by decide)).2
      0 (ChatContent.toolCall ⟨some "t1", some "foo", none, none, none⟩) rfl rfl
    exact h.1
  · exact (c1_tool_scan [ChatContent.text "x"]
      ⟨some "t1", none, some "a", none, none⟩ "t1" rfl (by decide)).1 rfl

/-- A fragment outside the tool-call identity branch is handled by the
last-element comparison. -/
theorem doAddContent_not_tool (content : List ChatContent) (next : ChatContent)
    (h : isToolCallWithId next = false) :
    doAddContent content next = addToLast content next := by
  cases next with
  | toolCall t =>
      simp only [isToolCallWithId] at h
      simp only [doAddContent, h, Bool.false_eq_true, if_false]
  | _ => rfl

/-- C3. For every incoming fragment that is not a tool invocation carrying
an id, `doAddContent` looks only at the last element: with an empty
sequence the fragment is appended; when the kinds match and the last
element supports merge, a declined merge appends the fragment and an
accepted merge absorbs it, keeping the sequence length; when the kinds
differ or the last element has no merge capability, the fragment is
appended. -/
theorem c3_last_element (content : List ChatContent) (next : ChatContent)
    (h : isToolCallWithId next = false) :
    (content = [] → doAddContent content next = [next]) ∧
    (∀ lastElement, content.getLast? = some lastElement →
      ((kindOf lastElement = kindOf next ∧ hasMerge lastElement = true) →
        doAddContent content next
          = (if (mergeContent lastElement next).2
             then content.dropLast ++ [(mergeContent lastElement next).1]
             else content ++ [next]) ∧
        ((mergeContent lastElement next).2 = true →
          (doAddContent content next).length = content.length)) ∧
      ((¬(kindOf lastElement = kindOf next) ∨ hasMerge lastElement = false) →
        doAddContent content next = content ++ [next])) := by
  rw [doAddContent_not_tool content next h]
  constructor
  · intro hnil
    subst hnil
    rfl
  · intro lastElement hlast
    have hne : content ≠ [] := by
      intro hnil
      rw [hnil] at hlast
      simp [List.getLast?] at hlast
    constructor
    · intro ⟨hk, hm⟩
      have hcond : (kindOf lastElement == kindOf next && hasMerge lastElement) = true := by
        rw [hm, hk]
        simp
      have heq : addToLast content next
          = (if (mergeContent lastElement next).2
             then content.dropLast ++ [(mergeContent lastElement next).1]
             else content ++ [next]) := by
        simp only [addToLast, hlast, hcond, if_true]
      refine ⟨heq, ?_⟩
      intro hok
      rw [heq, if_pos hok, List.length_append, List.length_dropLast]
      have : 0 < content.length := List.length_pos.mpr hne
      simp
      omega
    · intro hor
      have hcond : (kindOf lastElement == kindOf next && hasMerge lastElement) = false := by
        cases hor with
        | inl hk =>
            have : (kindOf lastElement == kindOf next) = false := by
              simpa using hk
            rw [this]
            rfl
        | inr hm =>
            rw [hm]
            simp
      simp only [addToLast, hlast, hcond, Bool.false_eq_true, if_false]

/-- Witness for C3 at concrete inputs: merging two text fragments absorbs
the second, a question declines and appends, a code fragment after text
appends, and a fragment on an empty sequence appends. -/
theorem c3_last_element_witness :
    isToolCallWithId (ChatContent.text "b") = false ∧
    doAddContent [ChatContent.text "a"] (ChatContent.text "b")
      = [ChatContent.text "ab"] ∧
    doAddContent [ChatContent.question "q" [] none] (ChatContent.question "r" [] none)
      = [ChatContent.question "q" [] none, ChatContent.question "r" [] none] ∧
    doAddContent [ChatContent.text "a"] (ChatContent.code "x" none none)
      = [ChatContent.text "a", ChatContent.code "x" none none] ∧
    doAddContent [] (ChatContent.text "b") = [ChatContent.text "b"] := by
  refine ⟨rfl, ?_, ?_, ?_, ?_⟩
  · have h := (((c3_last_element [ChatContent.text "a"] (ChatContent.text "b") rfl).2
      (ChatContent.text "a") rfl).1 ⟨rfl, rfl⟩).1
    simpa using h
  · have h := (((c3_last_element [ChatContent.question "q" [] none]
      (ChatContent.question "r" [] none) rfl).2
      (ChatContent.question "q" [] none) rfl).1 ⟨rfl, rfl⟩).1
    simpa using h
  · exact ((c3_last_element [ChatContent.text "a"] (ChatContent.code "x" none none) rfl).2
      (ChatContent.text "a") rfl).2 (Or.inl (by decide))
  · exact (c3_last_element [] (ChatContent.text "b") rfl).1 rfl

/-- C2, counterexample.  Adding the "t1"/"foo" fragment and then the
"t1"-with-arguments fragment yields a single element, but its accumulated
arguments are still absent rather than the JSON text: the second
fragment's id matches, so the merge adopts only its finished flag and
result and discards its arguments. -/
theorem c2_counterexample :
    (runAddContents [toolFrag1, toolFrag2]).content.length = 1 ∧
    firstToolArguments (runAddContents [toolFrag1, toolFrag2]).content = none ∧
    (none : Option String) ≠ some "\x7b\"x\":1\x7d" := by
  refine ⟨rfl, rfl, by decide⟩

/-- C2, amended.  The two fragments merge into a single element whose
accumulated arguments remain absent (the id-match branch of the tool-call
merge only adopts finished and result); the third fragment then leaves the
single element with the finished getter reading true and result "ok". -/
theorem c2_amended :
    (runAddContents [toolFrag1, toolFrag2]).content
      = [ChatContent.toolCall ⟨some "t1", some "foo", none, some false, none⟩] ∧
    firstToolArguments (runAddContents [toolFrag1, toolFrag2]).content = none ∧
    (runAddContents [toolFrag1, toolFrag2, toolFrag3]).content
      = [ChatContent.toolCall ⟨some "t1", some "foo", none, some true, some "ok"⟩] ∧
    firstToolFinished (runAddContents [toolFrag1, toolFrag2, toolFrag3]).content = true ∧
    firstToolResult (runAddContents [toolFrag1, toolFrag2, toolFrag3]).content
      = some "ok" := by
  exact ⟨rfl, rfl, rfl, rfl, rfl⟩

/-- Dropping undefined and empty renderings of the code's mapping stage
agrees with the spec-worded per-element rendering. -/
theorem dropEmpty_representationOf (c : ChatContent) :
    dropEmpty (representationOf false c) = specRenderPlain c := by
  rw [representationOf_false]
  unfold specRenderPlain
  cases hc : asStringCap c with
  | some s => rfl
  | none =>
      cases c with
      | text raw => simp [asStringCap] at hc
      | _ => rfl

/-- The collected plain representations of the code's pipeline agree, as a
list, with the spec-worded renderings. -/
theorem collected_eq_spec (content : List ChatContent) :
    (content.map (representationOf false)).filterMap dropEmpty
      = content.filterMap specRenderPlain := by
  induction content with
  | nil => rfl
  | cons c rest ih =>
      simp only [List.map_cons, List.filterMap_cons, dropEmpty_representationOf, ih]

/-- The code's plain flattening equals the spec-worded join. -/
theorem repr_eq_spec (content : List ChatContent) :
    responseRepresentationsToString content false = specAsStringJoin content := by
  unfold responseRepresentationsToString specAsStringJoin
  rw [collected_eq_spec]

/-- Every `addContent` call leaves the cached plain representation equal
to the flattening of the current content sequence. -/
theorem repInvariant (cs : List ChatContent) :
    ∀ s : ChatResponseState,
      s.responseRepresentation
        = some (responseRepresentationsToString s.content false) →
      (cs.foldl addContent s).responseRepresentation
        = some (responseRepresentationsToString (cs.foldl addContent s).content false) := by
  induction cs with
  | nil => intro s h; exact h
  | cons c rest ih =>
      intro s _
      exact ih (addContent s c) rfl

/-- C4, counterexample.  Before any fragment has been added, `asString()`
reads the still-uninitialized cached representation (undefined), not the
empty join of the empty content sequence. -/
theorem c4_counterexample :
    (runAddContents []).responseRepresentation
      ≠ some (specAsStringJoin (runAddContents []).content) := by
  intro h
  exact Option.noConfusion h

/-- C4, amended.  Once at least one fragment has been added, `asString()`
equals the in-order blank-line join of the elements' plain-string
renderings, with undefined and empty renderings omitted (the spec-worded
join, including its legacy plain-text fallback); informational elements
render as undefined and so contribute nothing. -/
theorem c4_flatten (frags : List ChatContent) (m : String) (h : frags ≠ []) :
    (runAddContents frags).responseRepresentation
      = some (specAsStringJoin (runAddContents frags).content) ∧
    asStringCap (ChatContent.informational m) = none := by
  constructor
  · obtain ⟨f, rest, rfl⟩ := List.exists_cons_of_ne_nil h
    have h2 := repInvariant rest (addContent initResponse f) rfl
    have h3 : runAddContents (f :: rest) = rest.foldl addContent (addContent initResponse f) := rfl
    rw [h3, h2, repr_eq_spec]
  · rfl

/-- Witness for C4 at a concrete input: one text fragment plus an
informational fragment flatten to just the text. -/
theorem c4_flatten_witness :
    (([ChatContent.text "hi", ChatContent.informational "note"] : List ChatContent) ≠ []) ∧
    ((runAddContents [ChatContent.text "hi", ChatContent.informational "note"]).responseRepresentation
        = some (specAsStringJoin
            (runAddContents [ChatContent.text "hi", ChatContent.informational "note"]).content)
      ∧ asStringCap (ChatContent.informational "note") = none) :=
  ⟨List.cons_ne_nil _ _,
   c4_flatten [ChatContent.text "hi", ChatContent.informational "note"] "note"
     (List.cons_ne_nil _ _)⟩

/-- C5. `cancel()` raises the cancellation flag, marks the response
complete, clears waiting-for-input, and fires exactly one change
notification; a subsequent `complete()` leaves all four outward status
flags exactly as the cancellation left them. -/
theorem c5_cancel_terminal (s : ResponseModelState) :
    (cancel s).canceled = true ∧
    (cancel s).isComplete = true ∧
    (cancel s).isWaitingForInput = false ∧
    (cancel s).fires = s.fires + 1 ∧
    outwardFlags (complete (cancel s)) = outwardFlags (cancel s) := by
  exact ⟨rfl, rfl, rfl, rfl, rfl⟩

/-- C6. `setChangeSet(A)` then `setChangeSet(B)` fires the `setChangeSet`
event once per call and never fires `deleteChangeSet`; a following
`setChangeSet(undefined)` appends exactly one `deleteChangeSet` event and
no `setChangeSet` event. -/
theorem c6_set_change_set_events (a b : Nat) :
    countSetCs (setChangeSet (setChangeSet initChatModel (some a)) (some b)).events = 2 ∧
    countDeleteCs (setChangeSet (setChangeSet initChatModel (some a)) (some b)).events = 0 ∧
    (setChangeSet (setChangeSet (setChangeSet initChatModel (some a)) (some b)) none).events
      = (setChangeSet (setChangeSet initChatModel (some a)) (some b)).events
        ++ [CsEvent.deleteChangeSet] := by
  exact ⟨rfl, rfl, rfl⟩

/-- C7, evaluation at the failing input.  After `setChangeSet(A)` and
`setChangeSet(B)` (ids 0 and 1), a change notification fired by the
replaced change set A still produces an `updateChangeSet` event from the
conversation model — carrying B — because the forwarding subscription on A
is never disposed when A is replaced. -/
theorem c7_replaced_listener_leak :
    (notifyChange (setChangeSet (setChangeSet initChatModel (some 0)) (some 1)) 0).events
      = [CsEvent.setChangeSet 0, CsEvent.setChangeSet 1,
         CsEvent.updateChangeSet (some 1)] ∧
    countUpdateCs
      (notifyChange (setChangeSet (setChangeSet initChatModel (some 0)) (some 1)) 0).events
      = 1 := by
  exact ⟨rfl, rfl⟩

/-- A found uri index points at an element whose uri is the searched one. -/
theorem findUriIdx_some (u : String) :
    ∀ (l : List CsElement) (i : Nat),
      findUriIdx u l = some i →
      ∃ old, l[i]? = some old ∧ old.uri = u := by
  intro l
  induction l with
  | nil => intro i h; simp [findUriIdx] at h
  | cons a rest ih =>
      intro i h
      unfold findUriIdx at h
      by_cases ha : (a.uri == u) = true
      · rw [if_pos ha] at h
        obtain rfl : i = 0 := by cases h; rfl
        exact ⟨a, by simp, by simpa using ha⟩
      · rw [if_neg ha] at h
        obtain ⟨j, hj, rfl⟩ := Option.map_eq_some'.mp h
        obtain ⟨old, hget, hu⟩ := ih j hj
        exact ⟨old, by simpa using hget, hu⟩

/-- C8. `replaceElement` overwrites the first element whose resource uri
equals the incoming element's, in place and position-preserving, fires one
notification and returns true; with no uri match it returns false leaving
elements and notification count untouched, and `addOrReplaceElement` then
appends the element with one notification. -/
theorem c8_replace_element (s : ChangeSetState) (e : CsElement) :
    (∀ i, findUriIdx e.uri s.elements = some i →
      replaceElement s e
        = ({ elements := s.elements.set i e,
             notifications := s.notifications + 1 }, true) ∧
      (∃ old, s.elements[i]? = some old ∧ old.uri = e.uri) ∧
      ((replaceElement s e).1.elements).length = s.elements.length) ∧
    (findUriIdx e.uri s.elements = none →
      replaceElement s e = (s, false) ∧
      addOrReplaceElement s e
        = { elements := s.elements ++ [e],
            notifications := s.notifications + 1 }) := by
  constructor
  · intro i hf
    have heq : replaceElement s e
        = ({ elements := s.elements.set i e,
             notifications := s.notifications + 1 }, true) := by
      simp only [replaceElement, hf]
    refine ⟨heq, findUriIdx_some e.uri s.elements i hf, ?_⟩
    rw [heq, List.length_set]
  · intro hf
    have heq : replaceElement s e = (s, false) := by
      simp only [replaceElement, hf]
    refine ⟨heq, ?_⟩
    unfold addOrReplaceElement
    rw [heq]
    rfl

/-- Witness for C8 at concrete inputs: a matching uri is replaced in place
with one notification; a fresh uri leaves the set untouched by
`replaceElement` and is appended by `addOrReplaceElement`. -/
theorem c8_replace_element_witness :
    (replaceElement ⟨[⟨"u1", none, none⟩, ⟨"u2", none, none⟩], 0⟩ ⟨"u2", some "nm", none⟩
      = (⟨[⟨"u1", none, none⟩, ⟨"u2", some "nm", none⟩], 1⟩, true)) ∧
    (replaceElement ⟨[⟨"u1", none, none⟩], 0⟩ ⟨"u3", none, none⟩
      = (⟨[⟨"u1", none, none⟩], 0⟩, false)) ∧
    (addOrReplaceElement ⟨[⟨"u1", none, none⟩], 0⟩ ⟨"u3", none, none⟩
      = ⟨[⟨"u1", none, none⟩, ⟨"u3", none, none⟩], 1⟩) := by
  refine ⟨?_, ?_, ?_⟩
  · exact ((c8_replace_element ⟨[⟨"u1", none, none⟩, ⟨"u2", none, none⟩], 0⟩
      ⟨"u2", some "nm", none⟩).1 1 rfl).1
  · exact ((c8_replace_element ⟨[⟨"u1", none, none⟩], 0⟩ ⟨"u3", none, none⟩).2 rfl).1
  · exact ((c8_replace_element ⟨[⟨"u1", none, none⟩], 0⟩ ⟨"u3", none, none⟩).2 rfl).2

/-- C9. `removeChangeSet()` with no active change set changes nothing and
fires nothing; with an active change set it clears it and fires one
`removeChangeSet` event carrying the removed instance. -/
theorem c9_remove_change_set (s : ChatModelState) :
    (s.changeSet = none → removeChangeSet s = s) ∧
    (∀ c, s.changeSet = some c →
      removeChangeSet s
        = { s with
            changeSet := none
            events := s.events ++ [CsEvent.removeChangeSet c] }) := by
  constructor
  · intro h
    simp only [removeChangeSet, h]
  · intro c h
    simp only [removeChangeSet, h]

/-- Witness for C9 at concrete inputs: a fresh model is untouched, an
active change set with id 5 is removed with one event. -/
theorem c9_remove_change_set_witness :
    removeChangeSet initChatModel = initChatModel ∧
    removeChangeSet (setChangeSet initChatModel (some 5))
      = { setChangeSet initChatModel (some 5) with
          changeSet := none
          events := (setChangeSet initChatModel (some 5)).events
            ++ [CsEvent.removeChangeSet 5] } :=
  ⟨(c9_remove_change_set initChatModel).1 rfl,
   (c9_remove_change_set (setChangeSet initChatModel (some 5))).2 5 rfl⟩

/-- A tool-call element's plain rendering is dropped by the empty-string
filter of the flattening. -/
theorem dropEmpty_toolCall (c : ChatContent) (hc : isToolCallKind c = true) :
    dropEmpty (representationOf false c) = none := by
  cases c <;> simp_all [isToolCallKind, representationOf, hasDisplayString,
    hasAsString, asStringCap, dropEmpty]

/-- The plain flattening of a content sequence does not change when every
tool-call element is removed from it. -/
theorem collected_drop_toolCalls (content : List ChatContent) :
    (content.map (representationOf false)).filterMap dropEmpty
      = ((content.filter (fun c => !(isToolCallKind c))).map
          (representationOf false)).filterMap dropEmpty := by
  induction content with
  | nil => rfl
  | cons c rest ih =>
      by_cases hc : isToolCallKind c = true
      · simp [List.filter_cons, hc, dropEmpty_toolCall c hc, ih]
      · have hc' : isToolCallKind c = false := by
          revert hc; cases isToolCallKind c <;> simp
        simp [List.filter_cons, hc', List.filterMap_cons, ih]

/-- C10. A tool-invocation element's plain-string rendering is the empty
string, so tool-invocation elements contribute nothing to the plain
flattening of any content sequence, while its display rendering is the
"Tool call: name(arguments)" template (an absent name stringifies as the
literal "undefined", absent arguments as the empty string). -/
theorem c10_toolcall_renderings (t : ToolCallData) (content : List ChatContent) :
    asStringCap (ChatContent.toolCall t) = some "" ∧
    responseRepresentationsToString content false
      = responseRepresentationsToString
          (content.filter (fun c => !(isToolCallKind c))) false ∧
    asDisplayCap (ChatContent.toolCall t)
      = some ("Tool call: " ++ jsShow t.name ++ "(" ++ t.arguments.getD "" ++ ")") := by
  refine ⟨rfl, ?_, rfl⟩
  unfold responseRepresentationsToString
  rw [collected_drop_toolCalls]

end ChatModel
